import Mathlib

/-!
Shallow embedding of the hybrid-search service
(`faiss_vector_search_mysql`): the FAISS vector index wrapper
(`app/faiss/faissManager.py`), the filter DSL compiler
(`app/filters/filter_handler.py`), the full-text query planning of the
store adapter (`app/db/database_connector.py`), and the HTTP handlers /
index registry (`app/main.py`).

External collaborators (MySQL execution, the sentence-transformer
embedder, file I/O) are modelled as parameters: the embedder is an
arbitrary function `String → Vec`, store queries are fields of a `DBOps`
record, and the persisted-file state of startup is passed in explicitly.
Python `float` values coming from the filter DSL are modelled as exact
rationals (`Rat`); the decimal strings accepted by the service are
represented exactly, `inf`/`nan` literals are outside the model.
-/

set_option maxRecDepth 4000

namespace HybridSearch

/-! ## Character and string helpers

All text processing is done on `List Char` (the `String.data` view) so
that every definition reduces by kernel computation.  `pyLower`,
`pyStrip`, `pySplit` and `pySplitOnce` model the Python `str.lower`,
`str.strip`, `str.split(sep)` and `str.split(sep, 1)` operations used by
the source (ASCII case folding, which is all the source relies on). -/

def lowerChar (c : Char) : Char :=
  if 'A' ≤ c ∧ c ≤ 'Z' then Char.ofNat (c.toNat + 32) else c

def isPySpace (c : Char) : Bool :=
  c = ' ' ∨ c = '\t' ∨ c = '\n' ∨ c = '\r' ∨ c = '\x0b' ∨ c = '\x0c'

def lowerChars (cs : List Char) : List Char := cs.map lowerChar

def stripChars (cs : List Char) : List Char :=
  ((cs.dropWhile isPySpace).reverse.dropWhile isPySpace).reverse

def pyLower (s : String) : String := ⟨lowerChars s.data⟩

def pyStrip (s : String) : String := ⟨stripChars s.data⟩

/-- Split a character list at every occurrence of the separator
(Python `str.split(sep)`: empty pieces are kept). -/
def splitChar (sep : Char) : List Char → List (List Char)
  | [] => [[]]
  | c :: cs =>
    if c = sep then
      [] :: splitChar sep cs
    else
      match splitChar sep cs with
      | [] => [[c]]
      | p :: ps => (c :: p) :: ps

/-- Split once at the first occurrence of the separator
(Python `str.split(sep, 1)`); `none` when the separator is absent. -/
def splitOnceChar (sep : Char) : List Char → Option (List Char × List Char)
  | [] => none
  | c :: cs =>
    if c = sep then some ([], cs)
    else
      match splitOnceChar sep cs with
      | none => none
      | some (a, b) => some (c :: a, b)

/-! ## Numeric and date parsing

`parsePyInt` and `parsePyFloat` model Python `int(...)` / `float(...)`
on the already-stripped inputs that the filter handler feeds them:
optional sign, decimal digits, optional fractional part and exponent.
The value of a float literal is represented exactly as a rational.
`parsePyDate` models the `datetime.fromisoformat` conversion path on
the ISO formats the service documents (date, optional `T`/space time,
optional trailing `Z`/UTC offset). -/

def digitsVal (cs : List Char) : Nat :=
  cs.foldl (fun a c => a * 10 + (c.toNat - 48)) 0

def allDigits (cs : List Char) : Bool :=
  !cs.isEmpty && cs.all Char.isDigit

def parsePyInt (cs : List Char) : Option Int :=
  match cs with
  | '+' :: rest => if allDigits rest then some (digitsVal rest) else none
  | '-' :: rest => if allDigits rest then some (-(digitsVal rest : Int)) else none
  | rest => if allDigits rest then some (digitsVal rest) else none

/-- Mantissa of a float literal: `digits`, `digits.digits`, `digits.` or
`.digits`, returned as the pair (all digits as one natural, number of
fractional digits), so the exact value is `fst / 10 ^ snd`. -/
def parseMantissa (cs : List Char) : Option (Nat × Nat) :=
  match splitOnceChar '.' cs with
  | none => if allDigits cs then some (digitsVal cs, 0) else none
  | some (ip, fp) =>
    if ip.isEmpty && fp.isEmpty then none
    else if (ip.isEmpty || ip.all Char.isDigit) && (fp.isEmpty || fp.all Char.isDigit) then
      some (digitsVal ip * 10 ^ fp.length + digitsVal fp, fp.length)
    else none

/-- Exact value `mant / 10 ^ scale · 10 ^ e` of a parsed float literal. -/
def floatOfParts (mant scale : Nat) (e : Int) : Rat :=
  if 0 ≤ e then mkRat (mant * 10 ^ e.toNat) (10 ^ scale)
  else mkRat mant (10 ^ scale * 10 ^ (-e).toNat)

def parseUnsignedFloat (cs : List Char) : Option Rat :=
  match splitOnceChar 'e' (lowerChars cs) with
  | none =>
    (parseMantissa (lowerChars cs)).map (fun m => floatOfParts m.1 m.2 0)
  | some (m, ex) =>
    match parseMantissa m, parsePyInt ex with
    | some mant, some e => some (floatOfParts mant.1 mant.2 e)
    | _, _ => none

def parsePyFloat (cs : List Char) : Option Rat :=
  match cs with
  | '+' :: rest => parseUnsignedFloat rest
  | '-' :: rest => (parseUnsignedFloat rest).map Neg.neg
  | rest => parseUnsignedFloat rest

structure DateTimeVal where
  year : Nat
  month : Nat
  day : Nat
  hour : Nat
  minute : Nat
  second : Nat
  deriving DecidableEq, Repr

def dropUtcSuffix (cs : List Char) : List Char :=
  if cs.reverse.take 6 = "00:00+".data then cs.take (cs.length - 6)
  else if cs.reverse.take 1 = ['Z'] then cs.take (cs.length - 1)
  else cs

def parseTimePart (cs : List Char) : Option (Nat × Nat × Nat) :=
  match splitChar ':' cs with
  | [h, m] =>
    if allDigits h && allDigits m && h.length = 2 && m.length = 2
        && digitsVal h < 24 && digitsVal m < 60 then
      some (digitsVal h, digitsVal m, 0)
    else none
  | [h, m, s] =>
    if allDigits h && allDigits m && allDigits s
        && h.length = 2 && m.length = 2 && s.length = 2
        && digitsVal h < 24 && digitsVal m < 60 && digitsVal s < 60 then
      some (digitsVal h, digitsVal m, digitsVal s)
    else none
  | _ => none

def parseDatePart (cs : List Char) : Option (Nat × Nat × Nat) :=
  match splitChar '-' cs with
  | [y, m, d] =>
    if allDigits y && allDigits m && allDigits d
        && y.length = 4 && m.length = 2 && d.length = 2
        && 1 ≤ digitsVal m && digitsVal m ≤ 12
        && 1 ≤ digitsVal d && digitsVal d ≤ 31 then
      some (digitsVal y, digitsVal m, digitsVal d)
    else none
  | _ => none

def parsePyDate (cs : List Char) : Option DateTimeVal :=
  let cs := dropUtcSuffix cs
  let datePart := cs.take 10
  let rest := cs.drop 10
  match parseDatePart datePart with
  | none => none
  | some (y, mo, d) =>
    match rest with
    | [] => some ⟨y, mo, d, 0, 0, 0⟩
    | sep :: timeCs =>
      if sep = 'T' ∨ sep = ' ' then
        match parseTimePart timeCs with
        | some (h, mi, s) => some ⟨y, mo, d, h, mi, s⟩
        | none => none
      else none

/-! ## Full-text query planning (`DatabaseConnector.search_fulltext` and
`DatabaseConnector.search_fulltext_with_filters`)

Only the query-processing part of these methods is modelled (which
MATCH mode is selected and which search pattern is bound); the SQL
execution itself is an external collaborator.  Both source methods
duplicate the same logic, so both are embedded separately. -/

inductive FtsMode where
  | boolean
  | natural
  deriving DecidableEq, Repr

/-- One `str.replace(pat, "\\" + pat)` step for a single-character
pattern. -/
def escapeCharStep (target : Char) (cs : List Char) : List Char :=
  cs.flatMap (fun c => if c = target then ['\\', c] else [c])

/-- The escaping chain applied to short queries in
`search_fulltext` (lines 193–200): `+ - ( ) * ?` each prefixed with a
backslash, applied as six sequential replaces. -/
def escapeBooleanChars (cs : List Char) : List Char :=
  escapeCharStep '?'
    (escapeCharStep '*'
      (escapeCharStep ')'
        (escapeCharStep '('
          (escapeCharStep '-'
            (escapeCharStep '+' cs)))))

/-- Query plan of `DatabaseConnector.search_fulltext`: the MATCH mode and
the bound search pattern, as computed in lines 186–208 of
`database_connector.py`. -/
def search_fulltext_plan (queryText : String) : FtsMode × String :=
  let processed := stripChars queryText.data
  if processed.length ≤ 3 then
    (.boolean, ⟨escapeBooleanChars processed ++ ['*']⟩)
  else
    (.natural, ⟨processed⟩)

/-- Query plan of `DatabaseConnector.search_fulltext_with_filters`
(lines 257–279 of `database_connector.py`; the filter conditions are
appended to the WHERE clause and do not affect the mode or pattern). -/
def search_fulltext_with_filters_plan (queryText : String) : FtsMode × String :=
  let processed := stripChars queryText.data
  if processed.length ≤ 3 then
    (.boolean, ⟨escapeBooleanChars processed ++ ['*']⟩)
  else
    (.natural, ⟨processed⟩)

/-- Number of non-space characters of a query (the quantity the spec's
short-query rule is phrased in terms of). -/
def countNonSpace (s : String) : Nat :=
  (s.data.filter (fun c => !isPySpace c)).length

/-! ## Schema configuration (`app/config.py`) -/

structure FilterConfig where
  column : String
  filter_type : String
  data_type : String
  valid_enum_values : Option (List String) := none
  deriving DecidableEq, Repr

structure TableConfig where
  name : String
  columns : List String
  hybrid : Bool
  filters : List FilterConfig := []
  latitude_column : Option String := none
  longitude_column : Option String := none
  deriving DecidableEq, Repr

/-- `Config.get_table_config`: linear scan over the configured tables,
`none` models the raised `Exception` when no table matches. -/
def get_table_config (tables : List TableConfig) (tableName : String) :
    Option TableConfig :=
  tables.find? (fun t => t.name = tableName)

/-! ## Filter values and conversion (`FilterHandler._convert_value`) -/

inductive FilterVal where
  | intV (n : Int)
  | decV (q : Rat)
  | dateV (d : DateTimeVal)
  | strV (s : String)
  deriving DecidableEq, Repr

/-- `FilterHandler._convert_value`: converts one already-stripped,
already-lowercased token to the declared data type; `Except.error`
models the raised `ValueError`.  Unknown data types fall back to the
string itself, as in the source. -/
def convert_value (value : String) (dataType : String) : Except Unit FilterVal :=
  if value = "" ∧ dataType ≠ "string" ∧ dataType ≠ "enum" then .error ()
  else if dataType = "int" then
    match parsePyInt value.data with
    | some n => .ok (.intV n)
    | none => .error ()
  else if dataType = "decimal" then
    match parsePyFloat value.data with
    | some q => .ok (.decV q)
    | none => .error ()
  else if dataType = "date" then
    match parsePyDate value.data with
    | some d => .ok (.dateV d)
    | none => .error ()
  else .ok (.strV value)

/-! ## Filter DSL parsing (`FilterHandler`) -/

/-- Parsed clause payload: the `filter_data` dictionary built by
`FilterHandler._parse_filter_value` (`rangeData` for `{"min"/"max"}`,
`exactData` for the single-token range form `{"exact"}`, `valuesData`
for `{"values"}`, `valueData` for `{"value"}`, `distanceData` for the
distance record). -/
inductive FilterData where
  | rangeData (minVal maxVal : Option FilterVal)
  | exactData (v : FilterVal)
  | valuesData (vs : List FilterVal)
  | valueData (v : FilterVal)
  | distanceData (center_lat center_lon max_distance : Rat)
  deriving DecidableEq, Repr

/-- The enum-allowlist exclusion test used in both the `in` and the
`exact`/`like` branches: the token (already lowercased) is rejected when
the column is an enum with a non-empty configured allowlist that does
not contain it (comparison against the lowercased allowlist). -/
def enum_excluded (fc : FilterConfig) (token : String) : Bool :=
  fc.data_type = "enum" &&
    (match fc.valid_enum_values with
     | some vs => !vs.isEmpty && !((vs.map pyLower).contains token)
     | none => false)

/-- The `range` branch of `_parse_filter_value` (lines 88–126): a value
containing `-` is split once into min/max parts (each stripped, each
optional); a conversion failure on either present part drops the whole
clause, and so does the `-`-only value with both parts empty.  A value
without `-` is converted as a single exact token. -/
def parse_range_value (value : String) (dataType : String) : Option FilterData :=
  if value.data.contains '-' then
    match splitOnceChar '-' value.data with
    | none => none
    | some (minRaw, maxRaw) =>
      let minPart : String := ⟨stripChars minRaw⟩
      let maxPart : String := ⟨stripChars maxRaw⟩
      if minPart ≠ "" then
        match convert_value minPart dataType with
        | .error _ => none
        | .ok mv =>
          if maxPart ≠ "" then
            match convert_value maxPart dataType with
            | .error _ => none
            | .ok xv => some (.rangeData (some mv) (some xv))
          else some (.rangeData (some mv) none)
      else
        if maxPart ≠ "" then
          match convert_value maxPart dataType with
          | .error _ => none
          | .ok xv => some (.rangeData none (some xv))
        else none
  else
    match convert_value value dataType with
    | .ok v => some (.exactData v)
    | .error _ => none

/-- The token loop of the `in` branch of `_parse_filter_value`
(lines 128–161): comma-split, per-token strip, empty tokens skipped,
enum-excluded tokens skipped, conversion failures skipped; survivors
are accumulated in order. -/
def parse_in_values (value : String) (fc : FilterConfig) : List FilterVal :=
  ((splitChar ',' value.data).map (fun cs => (⟨stripChars cs⟩ : String))).foldl
    (fun acc tok =>
      if tok = "" then acc
      else if enum_excluded fc tok then acc
      else
        match convert_value tok fc.data_type with
        | .ok v => acc ++ [v]
        | .error _ => acc)
    []

/-- The `distance` branch of `_parse_filter_value` (lines 203–245). -/
def parse_distance_value (value : String) (fc : FilterConfig) : Option FilterData :=
  if fc.data_type ≠ "geo" then none
  else
    match splitChar ',' value.data with
    | [latRaw, lonRaw, distRaw] =>
      match parsePyFloat (stripChars latRaw), parsePyFloat (stripChars lonRaw),
          parsePyFloat (stripChars distRaw) with
      | some centerLat, some centerLon, some maxDist =>
        if ¬(-90 ≤ centerLat ∧ centerLat ≤ 90 ∧ -180 ≤ centerLon ∧ centerLon ≤ 180) then
          none
        else if maxDist ≤ 0 then none
        else some (.distanceData centerLat centerLon maxDist)
      | _, _, _ => none
    | _ => none

/-- `FilterHandler._parse_filter_value`: dispatch on the configured
filter type.  `none` models every `return None` (dropped clause); the
final fall-through for unknown filter types also returns `none`. -/
def parse_filter_value (value : String) (fc : FilterConfig) : Option FilterData :=
  if fc.filter_type = "range" then
    parse_range_value value fc.data_type
  else if fc.filter_type = "in" then
    let vals := parse_in_values value fc
    if vals.isEmpty then none else some (.valuesData vals)
  else if fc.filter_type = "exact" ∨ fc.filter_type = "like" then
    if enum_excluded fc value then none
    else
      match convert_value value fc.data_type with
      | .ok v => some (.valueData v)
      | .error _ => none
  else if fc.filter_type = "distance" then
    parse_distance_value value fc
  else none

/-- One parsed-filters dictionary entry, as assembled in
`FilterHandler.parse_filters` lines 63–72 (lat/lon column names are
attached only for distance filters). -/
structure FilterEntry where
  filter_data : FilterData
  data_type : String
  filter_type : String
  latitude_column_name : Option String := none
  longitude_column_name : Option String := none
  deriving DecidableEq, Repr

abbrev ParsedFilters := List (String × FilterEntry)

/-- Python dict assignment `d[k] = v`: replace in place when the key is
present, append otherwise. -/
def dictInsert (l : List (String × FilterEntry)) (k : String) (v : FilterEntry) :
    List (String × FilterEntry) :=
  if l.any (fun p => p.1 = k) then
    l.map (fun p => if p.1 = k then (k, v) else p)
  else l ++ [(k, v)]

/-- The dict comprehension `{f.column: f for f in table_config.filters}`:
lookup returning the last filter config declared for a column. -/
def available_filters (fs : List FilterConfig) (column : String) :
    Option FilterConfig :=
  fs.foldl (fun acc f => if f.column = column then some f else acc) none

/-- The body of the clause loop in `FilterHandler.parse_filters`
(lines 39–76): clauses without `:` are skipped, the column is stripped,
the value stripped then lowercased, unknown columns are skipped, and a
clause whose value fails to parse is skipped. -/
def parse_filter_pair (tc : TableConfig) (acc : ParsedFilters) (pair : String) :
    ParsedFilters :=
  match splitOnceChar ':' pair.data with
  | none => acc
  | some (colRaw, valRaw) =>
    let column : String := ⟨stripChars colRaw⟩
    let valueStr : String := ⟨lowerChars (stripChars valRaw)⟩
    match available_filters tc.filters column with
    | none => acc
    | some fc =>
      match parse_filter_value valueStr fc with
      | none => acc
      | some fd =>
        let entry : FilterEntry :=
          if fc.filter_type = "distance" then
            { filter_data := fd, data_type := fc.data_type,
              filter_type := fc.filter_type,
              latitude_column_name := tc.latitude_column,
              longitude_column_name := tc.longitude_column }
          else
            { filter_data := fd, data_type := fc.data_type,
              filter_type := fc.filter_type }
        dictInsert acc column entry

/-- The clause loop of `parse_filters` over the `;`-split clause list. -/
def parse_filters_list (tc : TableConfig) (pairs : List String) : ParsedFilters :=
  pairs.foldl (parse_filter_pair tc) []

/-- `FilterHandler.parse_filters`: early empty result when the filter
string is empty or the table declares no filters, otherwise the clause
loop over the `;`-split string. -/
def parse_filters (filtersParam : String) (tc : TableConfig) : ParsedFilters :=
  if filtersParam = "" ∨ tc.filters = [] then []
  else parse_filters_list tc
    ((splitChar ';' filtersParam.data).map (fun cs => (⟨cs⟩ : String)))

/-! ## Rows (MySQL dictionaries)

A fetched row is an association list from column name to a Python
value; `null` models SQL NULL / Python `None`.  The value kinds the
claims exercise are integers and strings. -/

inductive PyVal where
  | intV (n : Int)
  | strV (s : String)
  | null
  deriving DecidableEq, Repr

abbrev Row := List (String × PyVal)

def lookupField (r : Row) (k : String) : Option PyVal :=
  (r.find? (fun p => p.1 = k)).map (fun p => p.2)

/-- Python `str(value)` on the modelled value kinds (only reached for
non-`None` values in the source). -/
def pyStr : PyVal → String
  | .intV n => toString n
  | .strV s => s
  | .null => "None"

/-- `item["id"]` read as a FAISS label: present and integral.  A missing
key models `"id" not in item` (and `KeyError` at the unchecked reads);
a non-integer value would make the numpy int64 conversion raise, which
the model folds into the same failure. -/
def getRowId (r : Row) : Option Int :=
  match lookupField r "id" with
  | some (.intV n) => some n
  | _ => none

/-- The text-column concatenation loop shared by
`Faiss_Manager.add_from_list` and `Faiss_Manager.add_or_update_item`:
for each configured field that is present and non-null, `str(value)`
lowercased; missing/null fields are skipped. -/
def embeddable_texts (item : Row) (textFields : List String) : List String :=
  textFields.foldl
    (fun acc f =>
      match lookupField item f with
      | some .null => acc
      | some v => acc ++ [pyLower (pyStr v)]
      | none => acc)
    []

/-- Python `" ".join(texts)`. -/
def joinSpace : List String → String
  | [] => ""
  | [t] => t
  | t :: rest => t ++ " " ++ joinSpace rest

/-! ## FAISS index model (`Faiss_Manager`)

`faiss.IndexIDMap(IndexFlatL2(d))` is an id-labelled flat store:
insertion-ordered `(id, vector)` pairs, duplicate ids possible via
plain `add_with_ids`.  Embeddings are integer vectors produced by an
arbitrary embedder parameter (the sentence-transformer is external);
squared L2 distance over them is exact. -/

abbrev Vec := List Int

abbrev FaissIndex := List (Int × Vec)

def sqDist (a b : Vec) : Int :=
  (List.zipWith (fun x y => (x - y) ^ 2) a b).sum

/-- `index.add_with_ids`: appends the labelled vector. -/
def add_with_ids (idx : FaissIndex) (itemId : Int) (v : Vec) : FaissIndex :=
  idx ++ [(itemId, v)]

/-- `index.remove_ids(IDSelectorArray([item_id]))`: removes every entry
carrying the id. -/
def remove_ids (idx : FaissIndex) (itemId : Int) : FaissIndex :=
  idx.filter (fun e => e.1 ≠ itemId)

/-- `Faiss_Manager._add_text`: embed the lowercased text and append it
under the given id. -/
def add_text (embed : String → Vec) (idx : FaissIndex) (text : String)
    (itemId : Int) : FaissIndex :=
  add_with_ids idx itemId (embed (pyLower text))

/-- `Faiss_Manager.add_from_list`: per row, concatenate the embeddable
texts (rows with none are skipped with a warning) and add the
embedding; `item["id"]` on a row without a usable id raises, modelled
as `Except.error`. -/
def add_from_list (embed : String → Vec) (idx : FaissIndex) (rows : List Row)
    (textFields : List String) : Except Unit FaissIndex :=
  rows.foldlM
    (fun ix item =>
      let texts := embeddable_texts item textFields
      if texts.isEmpty then .ok ix
      else
        match getRowId item with
        | some i => .ok (add_text embed ix (joinSpace texts) i)
        | none => .error ())
    idx

/-- `Faiss_Manager.add_or_update_item` (lines 55–91): missing `id`
field raises `ValueError`; no embeddable text raises `ValueError`;
otherwise every existing entry for the id is removed and the fresh
embedding appended. -/
def add_or_update_item (embed : String → Vec) (idx : FaissIndex) (item : Row)
    (textFields : List String) : Except Unit FaissIndex :=
  if lookupField item "id" = none then .error ()
  else
    let texts := embeddable_texts item textFields
    if texts.isEmpty then .error ()
    else
      match getRowId item with
      | none => .error ()
      | some itemId =>
        .ok (add_text embed (remove_ids idx itemId) (joinSpace texts) itemId)

/-- Stable insertion by ascending squared L2 distance to the query. -/
def insertByDist (q : Vec) (e : Int × Vec) : List (Int × Vec) → List (Int × Vec)
  | [] => [e]
  | f :: rest =>
    if sqDist q e.2 < sqDist q f.2 then e :: f :: rest
    else f :: insertByDist q e rest

def sortByDist (q : Vec) (l : List (Int × Vec)) : List (Int × Vec) :=
  l.foldr (insertByDist q) []

/-- `Faiss_Manager.search_text_with_filter` (lines 97–138), reduced to
the id row of the result matrix: empty index short-circuits to an empty
row; a present **and non-empty** filter id list restricts the
candidates via `IDSelectorArray`, while `None` or an empty list runs
the unfiltered search; FAISS returns `top_k` slots padded with `-1`
when fewer candidates exist. -/
def searchCandidates (idx : FaissIndex) (filterIds : Option (List Int)) :
    FaissIndex :=
  match filterIds with
  | some ids =>
    if 0 < ids.length then idx.filter (fun e => ids.contains e.1) else idx
  | none => idx

def search_text_with_filter (embed : String → Vec) (idx : FaissIndex)
    (text : String) (filterIds : Option (List Int)) (topK : Nat) : List Int :=
  if idx.isEmpty then []
  else
    let found :=
      ((sortByDist (embed (pyLower text)) (searchCandidates idx filterIds)).take
        topK).map Prod.fst
    found ++ List.replicate (topK - found.length) (-1)

/-! ## Index registry startup (`init_index_for_table`, `main.py` 41–91) -/

inductive InitOutcome where
  | registered (idx : FaissIndex)
  | loadError
  | buildError
  | notHybrid
  deriving DecidableEq, Repr

/-- `init_index_for_table` for one table: when hybrid, either load the
persisted file (when it exists and loading is allowed; a
`faiss.read_index` failure propagates uncaught, modelled by
`loadResult = none ↦ loadError`) or build the index from the rows
fetched via `get_all_from_table` and register it.  Non-hybrid tables
register nothing. -/
def init_index_for_table (embed : String → Vec) (tc : TableConfig)
    (fileExists : Bool) (loadResult : Option FaissIndex) (rows : List Row)
    (allowLoad : Bool) : InitOutcome :=
  if tc.hybrid then
    if fileExists && allowLoad then
      match loadResult with
      | some idx => .registered idx
      | none => .loadError
    else
      match add_from_list embed [] rows tc.columns with
      | .ok idx => .registered idx
      | .error _ => .buildError
  else .notHybrid

/-! ## Result fusion and hydration (`search_items`, `main.py` 264–366) -/

/-- `dict.fromkeys`-style first-occurrence deduplication with an
explicit seen set. -/
def dedupFirstAux (seen : List Int) : List Int → List Int
  | [] => []
  | x :: xs =>
    if x ∈ seen then dedupFirstAux seen xs
    else x :: dedupFirstAux (x :: seen) xs

/-- Lines 344 and 352 of `main.py`: the `-1` sentinels are dropped from
the raw FAISS id row, then `list(dict.fromkeys(lexical + semantic))`
fuses the two streams keeping first occurrences. -/
def combine_results (lexicalIds rawSemanticIds : List Int) : List Int :=
  dedupFirstAux [] (lexicalIds ++ rawSemanticIds.filter (fun i => i ≠ -1))

/-- The response denylist shared by `create_response_model` and
`item_to_response`. -/
def excludedFields : List String :=
  ["embedding", "created_at", "updated_at", "last_embedding_generated_at"]

/-- `item_to_response`: the row minus the denylisted fields (the
dynamically created response model is built from the same cleaned item,
so it carries exactly these fields). -/
def item_to_response (item : Row) : Row :=
  item.filter (fun p => !(excludedFields.contains p.1))

/-- The store-adapter calls `search_items` makes, abstracted: MySQL
execution is an external collaborator, and every error path inside
`DatabaseConnector` degrades to an empty id/row list. -/
structure DBOps where
  get_all_with_filters : String → ParsedFilters → Nat → List Int
  search_fulltext : String → List String → String → Nat → List Int
  search_fulltext_with_filters :
    String → List String → String → ParsedFilters → Nat → List Int
  get_filtered_ids : String → ParsedFilters → List Int
  get_items_by_ids : String → List Int → List Row

def lookupAssoc {α : Type} (l : List (String × α)) (k : String) : Option α :=
  (l.find? (fun p => p.1 = k)).map (fun p => p.2)

/-- The `{item["id"]: item for item in fetched}` dictionary: last row
wins for a duplicated id; rows without a usable id are outside the
model (the source would raise there). -/
def rowsById (rows : List Row) : List (Int × Row) :=
  rows.foldl
    (fun d item =>
      match getRowId item with
      | some i =>
        if d.any (fun p => p.1 = i) then
          d.map (fun p => if p.1 = i then (i, item) else p)
        else d ++ [(i, item)]
      | none => d)
    []

def lookupRowById (d : List (Int × Row)) (i : Int) : Option Row :=
  (d.find? (fun p => p.1 = i)).map (fun p => p.2)

/-- `GET /indexes/{table_name}` (`search_items`, lines 264–366): the
only HTTP error is the 404 for a table without configuration; the
response is the hydrated fused id list. -/
def search_items (cfgs : List TableConfig) (db : DBOps) (embed : String → Vec)
    (faissManagers : List (String × FaissIndex)) (tableName query : String)
    (top : Nat) (filters : Option String) : Except Nat (List Row) :=
  let processedQuery := pyLower query
  match get_table_config cfgs tableName with
  | none => .error 404
  | some tc =>
    let parsedFilters := parse_filters (filters.getD "") tc
    let idPair :=
      if (stripChars processedQuery.data).isEmpty then
        (db.get_all_with_filters tableName parsedFilters top, ([] : List Int))
      else
        let lexicalIds :=
          if !parsedFilters.isEmpty then
            db.search_fulltext_with_filters tableName tc.columns processedQuery
              parsedFilters top
          else
            db.search_fulltext tableName tc.columns processedQuery top
        match lookupAssoc faissManagers tableName with
        | some fm =>
          let filterIds : Option (List Int) :=
            if !parsedFilters.isEmpty then
              some (db.get_filtered_ids tableName parsedFilters)
            else none
          (lexicalIds, search_text_with_filter embed fm processedQuery filterIds top)
        | none => (lexicalIds, [])
    let combined := combine_results idPair.1 idPair.2
    .ok
      (if combined.isEmpty then []
       else
        let fetchedById := rowsById (db.get_items_by_ids tableName combined)
        combined.filterMap
          (fun r => (lookupRowById fetchedById r).map item_to_response))

/-! ## Upsert handler (`add_to_index`, `main.py` 369–412) -/

inductive AddOutcome where
  | httpError (status : Nat)
  | valueError
  | keyError
  | ok (newIndex : Option FaissIndex)
  deriving DecidableEq, Repr

/-- `POST /indexes/{table_name}`: 404 when the table has no
configuration or `get_with_id` returns no row; for hybrid tables the
FAISS manager is updated, and a `ValueError` from
`add_or_update_item` propagates out of the handler (`valueError`), as
does the `KeyError` for a missing manager (`keyError`). -/
def add_to_index (cfgs : List TableConfig)
    (faissManagers : List (String × FaissIndex)) (embed : String → Vec)
    (tableName : String) (fetched : Option Row) : AddOutcome :=
  match get_table_config cfgs tableName with
  | none => .httpError 404
  | some tc =>
    match fetched with
    | none => .httpError 404
    | some item =>
      if tc.hybrid then
        match lookupAssoc faissManagers tableName with
        | none => .keyError
        | some fm =>
          match add_or_update_item embed fm item tc.columns with
          | .ok newIdx => .ok (some newIdx)
          | .error _ => .valueError
      else .ok none

/-! ## Helper lemmas -/

theorem mem_insertByDist (q : Vec) (e a : Int × Vec) :
    ∀ l : List (Int × Vec), a ∈ insertByDist q e l ↔ a = e ∨ a ∈ l := by
  intro l
  induction l with
  | nil => simp [insertByDist]
  | cons f rest ih =>
    simp only [insertByDist]
    split
    · simp
    · simp only [List.mem_cons, ih]
      tauto

theorem mem_sortByDist (q : Vec) (a : Int × Vec) :
    ∀ l : List (Int × Vec), a ∈ sortByDist q l ↔ a ∈ l := by
  intro l
  induction l with
  | nil => simp [sortByDist]
  | cons f rest ih =>
    simp only [sortByDist, List.foldr_cons, mem_insertByDist, List.mem_cons]
    rw [show List.foldr (insertByDist q) [] rest = sortByDist q rest from rfl, ih]

theorem dedupFirstAux_congr :
    ∀ (l s₁ s₂ : List Int), (∀ x, x ∈ s₁ ↔ x ∈ s₂) →
      dedupFirstAux s₁ l = dedupFirstAux s₂ l
  | [], _, _, _ => rfl
  | x :: xs, s₁, s₂, h => by
    simp only [dedupFirstAux]
    by_cases hx : x ∈ s₁
    · rw [if_pos hx, if_pos ((h x).mp hx), dedupFirstAux_congr xs s₁ s₂ h]
    · rw [if_neg hx, if_neg (fun hc => hx ((h x).mpr hc)),
        dedupFirstAux_congr xs (x :: s₁) (x :: s₂)
          (fun y => by simp only [List.mem_cons, h y])]

theorem dedupFirstAux_append :
    ∀ (a s b : List Int),
      dedupFirstAux s (a ++ b) = dedupFirstAux s a ++ dedupFirstAux (s ++ a) b
  | [], s, b => by
    simp only [List.nil_append, List.append_nil, dedupFirstAux]
  | x :: xs, s, b => by
    show dedupFirstAux s (x :: (xs ++ b))
      = dedupFirstAux s (x :: xs) ++ dedupFirstAux (s ++ x :: xs) b
    by_cases hx : x ∈ s
    · simp only [dedupFirstAux, if_pos hx]
      rw [dedupFirstAux_append xs s b]
      have hmem : ∀ y : Int, y ∈ s ++ xs ↔ y ∈ s ++ x :: xs := by
        intro y
        simp only [List.mem_append, List.mem_cons]
        constructor
        · rintro (h | h)
          · exact Or.inl h
          · exact Or.inr (Or.inr h)
        · rintro (h | rfl | h)
          · exact Or.inl h
          · exact Or.inl hx
          · exact Or.inr h
      rw [dedupFirstAux_congr b (s ++ xs) (s ++ x :: xs) hmem]
    · simp only [dedupFirstAux, if_neg hx]
      rw [dedupFirstAux_append xs (x :: s) b]
      have hmem : ∀ y : Int, y ∈ x :: s ++ xs ↔ y ∈ s ++ x :: xs := by
        intro y
        simp only [List.mem_append, List.mem_cons]
        tauto
      rw [dedupFirstAux_congr b (x :: s ++ xs) (s ++ x :: xs) hmem, List.cons_append]

theorem mem_dedupFirstAux (x : Int) :
    ∀ (l seen : List Int), x ∈ dedupFirstAux seen l ↔ x ∈ l ∧ x ∉ seen := by
  intro l
  induction l with
  | nil => simp [dedupFirstAux]
  | cons y ys ih =>
    intro seen
    simp only [dedupFirstAux]
    by_cases hy : y ∈ seen
    · rw [if_pos hy, ih seen]
      constructor
      · rintro ⟨h1, h2⟩; exact ⟨List.mem_cons_of_mem _ h1, h2⟩
      · rintro ⟨h1, h2⟩
        rcases List.mem_cons.mp h1 with rfl | h1
        · exact absurd hy h2
        · exact ⟨h1, h2⟩
    · rw [if_neg hy]
      simp only [List.mem_cons, ih (y :: seen), List.mem_cons]
      constructor
      · rintro (rfl | ⟨h1, h2⟩)
        · exact ⟨Or.inl rfl, hy⟩
        · exact ⟨Or.inr h1, fun hc => h2 (Or.inr hc)⟩
      · rintro ⟨rfl | h1, h2⟩
        · exact Or.inl rfl
        · by_cases hxy : x = y
          · exact Or.inl hxy
          · exact Or.inr ⟨h1, fun hc => (hc.elim hxy h2)⟩

theorem dedupFirstAux_eq_self :
    ∀ (l seen : List Int), l.Nodup → (∀ x ∈ l, x ∉ seen) →
      dedupFirstAux seen l = l := by
  intro l
  induction l with
  | nil => intro seen _ _; rfl
  | cons x xs ih =>
    intro seen hnd hdisj
    simp only [dedupFirstAux, if_neg (hdisj x (List.mem_cons_self x xs))]
    congr 1
    refine ih (x :: seen) (List.Nodup.of_cons hnd) ?_
    intro y hy hmem
    rcases List.mem_cons.mp hmem with rfl | hmem
    · exact (List.nodup_cons.mp hnd).1 hy
    · exact hdisj y (List.mem_cons_of_mem _ hy) hmem

theorem lookupField_cons (p : String × PyVal) (rest : Row) (k : String) :
    lookupField (p :: rest) k
      = if p.1 = k then some p.2 else lookupField rest k := by
  by_cases h : p.1 = k <;> simp [lookupField, List.find?_cons, h]

theorem find?_filter_excluded (item : Row) (k : String) :
    lookupField (item_to_response item) k
      = if excludedFields.contains k then none else lookupField item k := by
  induction item with
  | nil =>
    simp only [item_to_response, List.filter_nil, lookupField, List.find?_nil,
      Option.map_none']
    split <;> rfl
  | cons p rest ih =>
    simp only [item_to_response, List.filter_cons] at *
    by_cases hk : excludedFields.contains p.1
    · rw [if_neg (by simp only [Bool.not_eq_true', Bool.not_true]; simpa using hk), ih]
      by_cases hpk : p.1 = k
      · subst hpk
        rw [if_pos hk, if_pos hk]
      · rw [lookupField_cons, if_neg hpk]
    · rw [if_pos (by simp only [Bool.not_eq_true']; simpa using hk), lookupField_cons, lookupField_cons]
      by_cases hpk : p.1 = k
      · subst hpk
        rw [if_pos rfl, if_pos rfl, if_neg (by simpa using hk)]
      · rw [if_neg hpk, if_neg hpk, ih]

/-- Pointwise form of the boolean-mode escaping: each of `+ - ( ) * ?`
becomes a backslash pair, every other character is kept. -/
def escOne (c : Char) : List Char :=
  if c = '+' ∨ c = '-' ∨ c = '(' ∨ c = ')' ∨ c = '*' ∨ c = '?' then ['\\', c]
  else [c]

theorem escapeCharStep_append (t : Char) (a b : List Char) :
    escapeCharStep t (a ++ b) = escapeCharStep t a ++ escapeCharStep t b := by
  simp [escapeCharStep]

theorem escapeBooleanChars_append (a b : List Char) :
    escapeBooleanChars (a ++ b) = escapeBooleanChars a ++ escapeBooleanChars b := by
  simp [escapeBooleanChars, escapeCharStep_append]

theorem escapeBooleanChars_singleton (c : Char) :
    escapeBooleanChars [c] = escOne c := by
  by_cases h1 : c = '+'
  · subst h1; rfl
  by_cases h2 : c = '-'
  · subst h2; rfl
  by_cases h3 : c = '('
  · subst h3; rfl
  by_cases h4 : c = ')'
  · subst h4; rfl
  by_cases h5 : c = '*'
  · subst h5; rfl
  by_cases h6 : c = '?'
  · subst h6; rfl
  simp [escapeBooleanChars, escapeCharStep, escOne, h1, h2, h3, h4, h5, h6]

theorem escapeBooleanChars_eq_flatMap :
    ∀ cs : List Char, escapeBooleanChars cs = cs.flatMap escOne
  | [] => rfl
  | c :: rest => by
    rw [show c :: rest = [c] ++ rest from rfl, escapeBooleanChars_append,
      List.flatMap_append, escapeBooleanChars_singleton,
      escapeBooleanChars_eq_flatMap rest]
    simp [List.flatMap_cons]

/-- The per-token outcome of the `in`-list loop: `none` for empty
tokens, enum-excluded tokens and conversion failures, the converted
value otherwise. -/
def gInVal (fc : FilterConfig) (tok : String) : Option FilterVal :=
  if tok = "" then none
  else if enum_excluded fc tok then none
  else
    match convert_value tok fc.data_type with
    | .ok v => some v
    | .error _ => none

theorem parse_in_loop (fc : FilterConfig) :
    ∀ (toks : List String) (acc : List FilterVal),
      toks.foldl
        (fun acc tok =>
          if tok = "" then acc
          else if enum_excluded fc tok then acc
          else
            match convert_value tok fc.data_type with
            | .ok v => acc ++ [v]
            | .error _ => acc) acc
      = acc ++ toks.filterMap (gInVal fc)
  | [], acc => by simp
  | t :: ts, acc => by
    simp only [List.foldl_cons, List.filterMap_cons]
    by_cases h1 : t = ""
    · rw [if_pos h1, parse_in_loop fc ts acc,
        show gInVal fc t = none by simp [gInVal, h1]]
    by_cases h2 : enum_excluded fc t
    · rw [if_neg h1, if_pos h2, parse_in_loop fc ts acc,
        show gInVal fc t = none by simp [gInVal, h1, h2]]
    rcases hc : convert_value t fc.data_type with e | v
    · rw [if_neg h1, if_neg h2]
      rw [show (match (Except.error e : Except Unit FilterVal) with
            | Except.ok v => acc ++ [v]
            | Except.error _ => acc) = acc from rfl]
      rw [parse_in_loop fc ts acc,
        show gInVal fc t = none by simp [gInVal, h1, h2, hc]]
    · rw [if_neg h1, if_neg h2]
      rw [show (match (Except.ok v : Except Unit FilterVal) with
            | Except.ok v => acc ++ [v]
            | Except.error _ => acc) = acc ++ [v] from rfl]
      rw [parse_in_loop fc ts (acc ++ [v]),
        show gInVal fc t = some v by simp [gInVal, h1, h2, hc]]
      simp

theorem parse_in_values_eq (v : String) (fc : FilterConfig) :
    parse_in_values v fc
      = ((splitChar ',' v.data).map
          (fun cs => (⟨stripChars cs⟩ : String))).filterMap (gInVal fc) := by
  rw [show parse_in_values v fc
      = ((splitChar ',' v.data).map
          (fun cs => (⟨stripChars cs⟩ : String))).foldl
        (fun acc tok =>
          if tok = "" then acc
          else if enum_excluded fc tok then acc
          else
            match convert_value tok fc.data_type with
            | .ok v => acc ++ [v]
            | .error _ => acc) [] from rfl,
    parse_in_loop fc _ [], List.nil_append]

/-! ## Claim theorems -/

theorem mem_search_filtered (embed : String → Vec) (idx : FaissIndex)
    (text : String) (ids : List Int) (k : Nat) (i : Int)
    (hi : i ∈ search_text_with_filter embed idx text (some ids) k)
    (hneg : i ≠ -1) (hne : ids ≠ []) :
    i ∈ ids ∧ ∃ v, (i, v) ∈ idx := by
  unfold search_text_with_filter at hi
  split at hi
  · cases hi
  · simp only [List.mem_append] at hi
    rcases hi with hi | hi
    · rcases List.mem_map.mp hi with ⟨e, he, rfl⟩
      have hcand : e ∈ searchCandidates idx (some ids) :=
        (mem_sortByDist _ e _).mp (List.take_subset _ _ he)
      rw [show searchCandidates idx (some ids)
            = idx.filter (fun e => ids.contains e.1) by
          simp [searchCandidates, List.length_pos.mpr hne]] at hcand
      have := List.mem_filter.mp hcand
      exact ⟨by simpa using this.2, ⟨e.2, by simpa using this.1⟩⟩
    · exact absurd (List.eq_of_mem_replicate hi) hneg

/-- C1 counterexample: a one-entry index, `k = 1`, and the **empty**
allowed-id list.  `search_text_with_filter` treats an empty filter list
like no filter at all (the `len(filter_ids) > 0` guard fails), runs the
unfiltered search and returns id 5, so the result is not empty as the
claim requires. -/
theorem C1_counterexample :
    search_text_with_filter (fun _ => [0]) [((5 : Int), ([0] : Vec))] "camera"
        (some []) 1 = [5]
    ∧ ([5] : List Int) ≠ [] := by
  exact ⟨by decide, by decide⟩

/-- C1 (amended): when the allowed-id list is **non-empty**, every
returned id other than the `-1` padding is both in the allowed set and
present in the index; when the allowed-id list is empty, the search is
the unfiltered search over the whole index (so its result is empty only
when the index is). -/
theorem C1_filtered_search_amended (embed : String → Vec) (idx : FaissIndex)
    (text : String) (k : Nat) :
    (∀ ids : List Int, ids ≠ [] →
      ∀ i ∈ search_text_with_filter embed idx text (some ids) k, i ≠ -1 →
        i ∈ ids ∧ ∃ v, (i, v) ∈ idx)
    ∧ search_text_with_filter embed idx text (some []) k
        = search_text_with_filter embed idx text none k := by
  constructor
  · intro ids hne i hi hneg
    exact mem_search_filtered embed idx text ids k i hi hneg hne
  · rfl

theorem C1_filtered_search_amended_witness :
    (5 : Int) ∈ ([5] : List Int)
    ∧ ∃ v, ((5 : Int), v) ∈ ([((5 : Int), ([0] : Vec))] : FaissIndex) :=
  (C1_filtered_search_amended (fun _ => [0]) [((5 : Int), ([0] : Vec))]
    "camera" 1).1 [5] (by decide) 5 (by decide) (by decide)

/-- C2 counterexample: a hybrid table whose persisted index file exists
and fails to load (`faiss.read_index` raises).  `init_index_for_table`
has no exception handling around `load_from_file`, so the failure
propagates (`loadError`) and no index is rebuilt from the rows, even
though building from the same rows would have succeeded. -/
theorem C2_counterexample :
    init_index_for_table (fun _ => [0])
        { name := "itens", columns := ["titulo"], hybrid := true } true none
        [[("id", PyVal.intV 1), ("titulo", PyVal.strV "Camera")]] true
      = InitOutcome.loadError
    ∧ add_from_list (fun _ => [0]) []
        [[("id", PyVal.intV 1), ("titulo", PyVal.strV "Camera")]] ["titulo"]
      = .ok [((1 : Int), ([0] : Vec))]
    ∧ InitOutcome.loadError ≠ InitOutcome.registered [((1 : Int), ([0] : Vec))] := by
  exact ⟨by decide, by rfl, by decide⟩

/-- C2 (amended): for a hybrid table, when the persisted file exists and
loading is allowed the outcome is exactly the load result — a load
failure propagates out of startup, with no rebuild; the index is built
from the store's rows exactly when the file is missing or loading is
disallowed. -/
theorem C2_startup_load_amended (embed : String → Vec) (tc : TableConfig)
    (fileExists : Bool) (loadResult : Option FaissIndex) (rows : List Row)
    (allowLoad : Bool) (h : tc.hybrid = true) :
    ((fileExists && allowLoad) = true →
      init_index_for_table embed tc fileExists loadResult rows allowLoad
        = (match loadResult with
           | some idx => .registered idx
           | none => .loadError))
    ∧ ((fileExists && allowLoad) = false →
      init_index_for_table embed tc fileExists loadResult rows allowLoad
        = (match add_from_list embed [] rows tc.columns with
           | .ok idx => .registered idx
           | .error _ => .buildError)) := by
  constructor
  · intro hfa
    simp [init_index_for_table, h, hfa]
  · intro hfa
    simp [init_index_for_table, h, hfa]

theorem C2_startup_load_amended_witness :
    init_index_for_table (fun _ => [0])
        { name := "itens", columns := ["titulo"], hybrid := true } true
        (some [((3 : Int), ([1] : Vec))]) [] true
      = InitOutcome.registered [((3 : Int), ([1] : Vec))] :=
  (C2_startup_load_amended (fun _ => [0])
      { name := "itens", columns := ["titulo"], hybrid := true } true
      (some [((3 : Int), ([1] : Vec))]) [] true rfl).1 rfl

/-- C3: the fusion of `search_items` is the ordered deduplicating
union — the deduplicated lexical stream in its original order, followed
by exactly those semantic ids that are neither the `-1` sentinel nor
already present in the lexical stream; and a duplicate-free lexical
stream is kept verbatim. -/
theorem C3_fusion (lex sem : List Int) :
    combine_results lex sem
      = dedupFirstAux [] lex
        ++ dedupFirstAux lex (sem.filter (fun i => i ≠ -1))
    ∧ (∀ x : Int, x ∈ dedupFirstAux lex (sem.filter (fun i => i ≠ -1))
        ↔ x ∈ sem ∧ x ≠ -1 ∧ x ∉ lex)
    ∧ (lex.Nodup → dedupFirstAux [] lex = lex) := by
  refine ⟨?_, ?_, ?_⟩
  · unfold combine_results
    rw [dedupFirstAux_append, List.nil_append]
  · intro x
    rw [mem_dedupFirstAux]
    simp only [List.mem_filter, decide_eq_true_eq]
    tauto
  · intro h
    exact dedupFirstAux_eq_self lex [] h (by simp)

theorem C3_fusion_witness :
    combine_results [3, 1, 2] [4, -1, 1, 5]
      = dedupFirstAux [] [3, 1, 2]
        ++ dedupFirstAux [3, 1, 2]
            (([4, -1, 1, 5] : List Int).filter (fun i => i ≠ -1))
    ∧ dedupFirstAux [] [3, 1, 2] = [3, 1, 2] :=
  ⟨(C3_fusion [3, 1, 2] [4, -1, 1, 5]).1,
   (C3_fusion [3, 1, 2] [4, -1, 1, 5]).2.2 (by decide)⟩

/-- C4: a successful `add_or_update_item` leaves exactly one index
entry for the item's id, and the new index is literally the old index
with every entry for that id removed followed by the freshly embedded
entry. -/
theorem C4_upsert_exactly_one (embed : String → Vec) (idx : FaissIndex)
    (item : Row) (textFields : List String) (itemId : Int) (newIdx : FaissIndex)
    (hok : add_or_update_item embed idx item textFields = .ok newIdx)
    (hid : getRowId item = some itemId) :
    newIdx.countP (fun e => e.1 = itemId) = 1
    ∧ newIdx = add_text embed (remove_ids idx itemId)
        (joinSpace (embeddable_texts item textFields)) itemId := by
  unfold add_or_update_item at hok
  by_cases h1 : lookupField item "id" = none
  · rw [if_pos h1] at hok
    exact absurd hok (by simp)
  · rw [if_neg h1] at hok
    by_cases h2 : (embeddable_texts item textFields).isEmpty
    · rw [if_pos h2] at hok
      exact absurd hok (by simp)
    · rw [if_neg h2, hid] at hok
      have hnew : newIdx = add_text embed (remove_ids idx itemId)
          (joinSpace (embeddable_texts item textFields)) itemId := by
        cases hok
        rfl
      refine ⟨?_, hnew⟩
      rw [hnew]
      show ((remove_ids idx itemId
        ++ [(itemId, embed (pyLower (joinSpace (embeddable_texts item
              textFields))))]).countP (fun e => e.1 = itemId)) = 1
      rw [List.countP_append]
      have hz : (remove_ids idx itemId).countP (fun e => e.1 = itemId) = 0 := by
        apply List.countP_eq_zero.mpr
        intro a ha
        have := (List.mem_filter.mp ha).2
        simpa using this
      rw [hz]
      simp

theorem C4_upsert_exactly_one_witness :
    (([((6 : Int), ([3] : Vec)), ((5 : Int), ([0] : Vec))] : FaissIndex).countP
        (fun e => e.1 = (5 : Int)) = 1)
    ∧ ([((6 : Int), ([3] : Vec)), ((5 : Int), ([0] : Vec))] : FaissIndex)
        = add_text (fun _ => [0])
            (remove_ids
              [((5 : Int), ([1] : Vec)), ((5 : Int), ([2] : Vec)),
                ((6 : Int), ([3] : Vec))] 5)
            (joinSpace (embeddable_texts
              [("id", PyVal.intV 5), ("titulo", PyVal.strV "A")] ["titulo"])) 5 :=
  C4_upsert_exactly_one (fun _ => [0])
    [((5 : Int), ([1] : Vec)), ((5 : Int), ([2] : Vec)), ((6 : Int), ([3] : Vec))]
    [("id", PyVal.intV 5), ("titulo", PyVal.strV "A")] ["titulo"] 5
    [((6 : Int), ([3] : Vec)), ((5 : Int), ([0] : Vec))] (by rfl) (by rfl)

/-- C5 counterexample: the query `"a  b"` has 2 non-space characters, so
by the claim it should run in prefix/boolean mode; but the source tests
`len(query_text.strip()) <= 3`, the stripped text `"a  b"` has length 4
(internal spaces count), and the query runs in natural-language mode. -/
theorem C5_counterexample :
    countNonSpace "a  b" ≤ 3
    ∧ search_fulltext_plan "a  b" = (FtsMode.natural, "a  b")
    ∧ FtsMode.natural ≠ FtsMode.boolean := by
  exact ⟨by decide, by decide, by decide⟩

/-- C5 (amended): a query whose **stripped text** (internal spaces
included) has length ≤ 3 runs in boolean mode with `+ - ( ) * ?`
escaped and a trailing `*` appended, a longer one runs in
natural-language mode, and the filtered lexical search applies exactly
the same rule. -/
theorem C5_short_query_mode_amended (q : String) :
    ((stripChars q.data).length ≤ 3 →
      search_fulltext_plan q
        = (FtsMode.boolean, ⟨(stripChars q.data).flatMap escOne ++ ['*']⟩))
    ∧ (3 < (stripChars q.data).length →
      search_fulltext_plan q = (FtsMode.natural, ⟨stripChars q.data⟩))
    ∧ search_fulltext_with_filters_plan q = search_fulltext_plan q := by
  refine ⟨?_, ?_, rfl⟩
  · intro h
    unfold search_fulltext_plan
    rw [if_pos h, escapeBooleanChars_eq_flatMap]
  · intro h
    unfold search_fulltext_plan
    rw [if_neg (by omega)]

theorem C5_short_query_mode_amended_witness :
    search_fulltext_plan "ca " = (FtsMode.boolean, "ca*")
    ∧ search_fulltext_plan "camera" = (FtsMode.natural, "camera") := by
  constructor
  · rw [(C5_short_query_mode_amended "ca ").1 (by decide)]
    decide
  · rw [(C5_short_query_mode_amended "camera").2.1 (by decide)]
    decide

theorem parse_distance_value_spec (v : String) (fc : FilterConfig)
    (hgeo : fc.data_type = "geo") (d : FilterData) :
    parse_distance_value v fc = some d
      ↔ ∃ aRaw bRaw cRaw lat lon r,
          splitChar ',' v.data = [aRaw, bRaw, cRaw]
          ∧ parsePyFloat (stripChars aRaw) = some lat
          ∧ parsePyFloat (stripChars bRaw) = some lon
          ∧ parsePyFloat (stripChars cRaw) = some r
          ∧ -90 ≤ lat ∧ lat ≤ 90 ∧ -180 ≤ lon ∧ lon ≤ 180 ∧ 0 < r
          ∧ d = .distanceData lat lon r := by
  unfold parse_distance_value
  rw [if_neg (by rw [hgeo]; simp)]
  constructor
  · intro h
    split at h
    case h_1 latRaw lonRaw distRaw heq =>
      split at h
      case h_1 lat lon r hlat hlon hr =>
        split at h
        · exact absurd h (by simp)
        · split at h
          · exact absurd h (by simp)
          · rename_i hrange hdist
            push_neg at hrange
            cases h
            exact ⟨latRaw, lonRaw, distRaw, lat, lon, r, heq, hlat, hlon, hr,
              hrange.1, hrange.2.1, hrange.2.2.1, hrange.2.2.2,
              lt_of_not_le hdist, rfl⟩
      case h_2 hnone =>
        exact absurd h (by simp)
    case h_2 hother =>
      exact absurd h (by simp)
  · rintro ⟨a, b, c, lat, lon, r, hsplit, ha, hb, hc, h1, h2, h3, h4, h5, rfl⟩
    rw [hsplit]
    dsimp only
    rw [ha, hb, hc]
    dsimp only
    rw [if_neg (not_not_intro ⟨h1, h2, h3, h4⟩), if_neg (not_le.mpr h5)]

/-- C7: a distance clause parses successfully exactly when the value is
three comma-separated numerics (each part stripped) with the latitude
in [-90, 90], the longitude in [-180, 180] and a strictly positive
radius, yielding the `{center_lat, center_lon, max_distance}` record;
any other shape, unparsable part, out-of-range coordinate or
non-positive radius drops the clause. -/
theorem C7_distance_clause (fc : FilterConfig) (v : String)
    (hft : fc.filter_type = "distance") (hgeo : fc.data_type = "geo")
    (d : FilterData) :
    parse_filter_value v fc = some d
      ↔ ∃ aRaw bRaw cRaw lat lon r,
          splitChar ',' v.data = [aRaw, bRaw, cRaw]
          ∧ parsePyFloat (stripChars aRaw) = some lat
          ∧ parsePyFloat (stripChars bRaw) = some lon
          ∧ parsePyFloat (stripChars cRaw) = some r
          ∧ -90 ≤ lat ∧ lat ≤ 90 ∧ -180 ≤ lon ∧ lon ≤ 180 ∧ 0 < r
          ∧ d = .distanceData lat lon r := by
  unfold parse_filter_value
  rw [if_neg (by rw [hft]; decide), if_neg (by rw [hft]; decide),
    if_neg (by rw [hft]; decide), if_pos hft]
  exact parse_distance_value_spec v fc hgeo d

theorem C7_distance_clause_witness :
    parse_filter_value "40.0,-74.0,50"
        { column := "localizacao", filter_type := "distance",
          data_type := "geo" }
      = some (.distanceData 40 (-74) 50) :=
  (C7_distance_clause
      { column := "localizacao", filter_type := "distance", data_type := "geo" }
      "40.0,-74.0,50" rfl rfl (.distanceData 40 (-74) 50)).mpr
    ⟨"40.0".data, "-74.0".data, "50".data, 40, -74, 50, by decide, by decide,
      by decide, by decide, by decide, by decide, by decide, by decide,
      by decide, rfl⟩

/-- C6: filter parsing is input-tolerant — a clause without `:` leaves
the parsed set unchanged, a clause naming an unconfigured column leaves
it unchanged, an `in` clause keeps exactly the tokens that are
non-empty, enum-allowed and convertible (dropping the others), an `in`
clause with no surviving token is dropped entirely (a parsed `in`
clause never carries an empty value list), and a dropped clause leaves
the remaining clauses of the string parsed as if it were absent. -/
theorem C6_filter_parse_tolerant :
    (∀ (tc : TableConfig) (acc : ParsedFilters) (pair : String),
      splitOnceChar ':' pair.data = none → parse_filter_pair tc acc pair = acc)
    ∧ (∀ (tc : TableConfig) (acc : ParsedFilters) (pair : String)
        (colRaw valRaw : List Char),
      splitOnceChar ':' pair.data = some (colRaw, valRaw) →
      available_filters tc.filters ⟨stripChars colRaw⟩ = none →
      parse_filter_pair tc acc pair = acc)
    ∧ (∀ (fc : FilterConfig) (v : String), fc.filter_type = "in" →
      parse_filter_value v fc
        = (let vals := ((splitChar ',' v.data).map
              (fun cs => (⟨stripChars cs⟩ : String))).filterMap (gInVal fc)
           if vals.isEmpty then none else some (.valuesData vals)))
    ∧ (∀ (fc : FilterConfig) (v : String) (vals : List FilterVal),
      fc.filter_type = "in" →
      parse_filter_value v fc = some (.valuesData vals) → vals ≠ [])
    ∧ (∀ (tc : TableConfig) (pair : String),
      (∀ acc, parse_filter_pair tc acc pair = acc) →
      ∀ (a b : List String),
        parse_filters_list tc (a ++ pair :: b) = parse_filters_list tc (a ++ b)) := by
  refine ⟨?_, ?_, ?_, ?_, ?_⟩
  · intro tc acc pair h
    unfold parse_filter_pair
    rw [h]
  · intro tc acc pair colRaw valRaw h h2
    unfold parse_filter_pair
    rw [h]
    dsimp only
    rw [h2]
  · intro fc v hft
    unfold parse_filter_value
    rw [if_neg (by rw [hft]; decide), if_pos hft]
    show (if (parse_in_values v fc).isEmpty = true then none
          else some (FilterData.valuesData (parse_in_values v fc))) = _
    rw [parse_in_values_eq]
  · intro fc v vals hft h
    unfold parse_filter_value at h
    rw [if_neg (by rw [hft]; decide), if_pos hft] at h
    dsimp only at h
    split at h
    · exact absurd h (by simp)
    · rename_i he
      simp only [Option.some.injEq, FilterData.valuesData.injEq] at h
      subst h
      intro hc
      rw [hc] at he
      exact he rfl
  · intro tc pair hid a b
    unfold parse_filters_list
    suffices haux : ∀ (init : ParsedFilters) (a : List String),
        List.foldl (parse_filter_pair tc) init (a ++ pair :: b)
          = List.foldl (parse_filter_pair tc) init (a ++ b) from haux [] a
    intro init a
    induction a generalizing init with
    | nil =>
      simp only [List.nil_append, List.foldl_cons, hid init]
    | cons x xs ih =>
      simp only [List.cons_append, List.foldl_cons]
      exact ih (parse_filter_pair tc init x)

theorem C6_filter_parse_tolerant_witness :
    parse_filter_pair
        { name := "itens", columns := [], hybrid := false,
          filters :=
            [{ column := "status", filter_type := "in", data_type := "enum",
               valid_enum_values := some ["ativo"] }] }
        [] "nofilter" = []
    ∧ parse_filter_pair
        { name := "itens", columns := [], hybrid := false,
          filters :=
            [{ column := "status", filter_type := "in", data_type := "enum",
               valid_enum_values := some ["ativo"] }] }
        [] "foo:x" = []
    ∧ parse_filter_value "bogus,nope"
        { column := "status", filter_type := "in", data_type := "enum",
          valid_enum_values := some ["ativo"] } = none
    ∧ ([FilterVal.strV "a", FilterVal.strV "b"] ≠ ([] : List FilterVal))
    ∧ parse_filters_list
        { name := "itens", columns := [], hybrid := false,
          filters :=
            [{ column := "status", filter_type := "in", data_type := "enum",
               valid_enum_values := some ["ativo"] }] }
        ["nofilter", "status:ativo"]
      = parse_filters_list
        { name := "itens", columns := [], hybrid := false,
          filters :=
            [{ column := "status", filter_type := "in", data_type := "enum",
               valid_enum_values := some ["ativo"] }] }
        ["status:ativo"] :=
  ⟨C6_filter_parse_tolerant.1 _ [] "nofilter" (by decide),
   C6_filter_parse_tolerant.2.1 _ [] "foo:x" "foo".data "x".data (by decide)
     (by decide),
   by
     rw [C6_filter_parse_tolerant.2.2.1
       { column := "status", filter_type := "in", data_type := "enum",
         valid_enum_values := some ["ativo"] } "bogus,nope" rfl]
     decide,
   C6_filter_parse_tolerant.2.2.2.1
     { column := "categoria", filter_type := "in", data_type := "string" }
     "a,b" [FilterVal.strV "a", FilterVal.strV "b"] rfl (by decide),
   C6_filter_parse_tolerant.2.2.2.2 _ "nofilter"
     (fun acc => C6_filter_parse_tolerant.1 _ acc "nofilter" (by decide))
     [] ["status:ativo"]⟩

theorem search_items_error_iff (cfgs : List TableConfig) (db : DBOps)
    (embed : String → Vec) (fms : List (String × FaissIndex))
    (tableName query : String) (top : Nat) (filters : Option String) (e : Nat) :
    search_items cfgs db embed fms tableName query top filters = .error e
      ↔ e = 404 ∧ get_table_config cfgs tableName = none := by
  unfold search_items
  rcases hcfg : get_table_config cfgs tableName with _ | tc
  · simp [eq_comm]
  · simp

theorem add_to_index_httpError_iff (cfgs : List TableConfig)
    (fms : List (String × FaissIndex)) (embed : String → Vec)
    (tableName : String) (fetched : Option Row) (s : Nat) :
    add_to_index cfgs fms embed tableName fetched = .httpError s
      ↔ s = 404
        ∧ (get_table_config cfgs tableName = none ∨ fetched = none) := by
  unfold add_to_index
  rcases hcfg : get_table_config cfgs tableName with _ | tc
  · simp [eq_comm]
  · rcases fetched with _ | item
    · simp [eq_comm]
    · dsimp only
      by_cases hh : tc.hybrid = true
      · simp only [hh, if_true]
        rcases hl : lookupAssoc fms tableName with _ | fm
        · simp [hl]
        · rcases ha : add_or_update_item embed fm item tc.columns with u | ni
          · simp [hl, ha]
          · simp [hl, ha]
      · simp only [Bool.not_eq_true] at hh
        simp [hh]

/-- C8: a search request returns HTTP 404 exactly when the requested
table has no configuration (and 404 is the only HTTP error a search can
produce — in particular a filter string that fails to parse never
yields a 400), and an upsert request returns HTTP 404 exactly when the
table has no configuration or the referenced row was not found (again
the only HTTP error status produced is 404). -/
theorem C8_status_codes (cfgs : List TableConfig) (db : DBOps)
    (embed : String → Vec) (fms : List (String × FaissIndex))
    (tableName query : String) (top : Nat) (filters : Option String)
    (fetched : Option Row) :
    ((∃ e, search_items cfgs db embed fms tableName query top filters
        = .error e)
      ↔ get_table_config cfgs tableName = none)
    ∧ (∀ e, search_items cfgs db embed fms tableName query top filters
        = .error e → e = 404)
    ∧ ((∃ s, add_to_index cfgs fms embed tableName fetched = .httpError s)
      ↔ (get_table_config cfgs tableName = none ∨ fetched = none))
    ∧ (∀ s, add_to_index cfgs fms embed tableName fetched = .httpError s
        → s = 404) := by
  refine ⟨?_, ?_, ?_, ?_⟩
  · constructor
    · rintro ⟨e, he⟩
      exact ((search_items_error_iff cfgs db embed fms tableName query top
        filters e).mp he).2
    · intro h
      exact ⟨404, (search_items_error_iff cfgs db embed fms tableName query top
        filters 404).mpr ⟨rfl, h⟩⟩
  · intro e he
    exact ((search_items_error_iff cfgs db embed fms tableName query top
      filters e).mp he).1
  · constructor
    · rintro ⟨s, hs⟩
      exact ((add_to_index_httpError_iff cfgs fms embed tableName fetched
        s).mp hs).2
    · intro h
      exact ⟨404, (add_to_index_httpError_iff cfgs fms embed tableName fetched
        404).mpr ⟨rfl, h⟩⟩
  · intro s hs
    exact ((add_to_index_httpError_iff cfgs fms embed tableName fetched
      s).mp hs).1

theorem C8_status_codes_witness :
    (∃ e, search_items []
        ⟨fun _ _ _ => [], fun _ _ _ _ => [], fun _ _ _ _ _ => [],
          fun _ _ => [], fun _ _ => []⟩
        (fun _ => [0]) [] "t" "" 5 none = .error e)
    ∧ (∃ s, add_to_index [] [] (fun _ => [0]) "t" none
        = AddOutcome.httpError s) :=
  ⟨(C8_status_codes []
      ⟨fun _ _ _ => [], fun _ _ _ _ => [], fun _ _ _ _ _ => [],
        fun _ _ => [], fun _ _ => []⟩
      (fun _ => [0]) [] "t" "" 5 none none).1.mpr rfl,
   (C8_status_codes []
      ⟨fun _ _ _ => [], fun _ _ _ _ => [], fun _ _ _ _ _ => [],
        fun _ _ => [], fun _ _ => []⟩
      (fun _ => [0]) [] "t" "" 5 none none).2.2.1.mpr (Or.inl rfl)⟩

/-- C9: a response row carries none of the denylisted fields
(`embedding`, `created_at`, `updated_at`, `last_embedding_generated_at`)
and every other field of the fetched row with its original value; and
every row a search response emits is the denylist-cleaned image of a
fetched row. -/
theorem mem_hydrated_results (cond : Bool) (l : List Int) (d : List (Int × Row))
    (row : Row)
    (h : row ∈ (if cond then []
      else l.filterMap (fun r => (lookupRowById d r).map item_to_response))) :
    ∃ item, row = item_to_response item := by
  split at h
  · cases h
  · rcases List.mem_filterMap.mp h with ⟨r, _, hmap⟩
    rcases Option.map_eq_some'.mp hmap with ⟨item, _, hitem⟩
    exact ⟨item, hitem.symm⟩

theorem C9_response_denylist :
    (∀ (item : Row) (k : String),
      lookupField (item_to_response item) k
        = if excludedFields.contains k then none else lookupField item k)
    ∧ (∀ (cfgs : List TableConfig) (db : DBOps) (embed : String → Vec)
        (fms : List (String × FaissIndex)) (tableName query : String)
        (top : Nat) (filters : Option String) (results : List Row) (row : Row),
      search_items cfgs db embed fms tableName query top filters = .ok results →
      row ∈ results → ∃ item, row = item_to_response item) := by
  constructor
  · exact find?_filter_excluded
  · intro cfgs db embed fms tableName query top filters results row hok hmem
    unfold search_items at hok
    rcases hcfg : get_table_config cfgs tableName with _ | tc
    · rw [hcfg] at hok
      exact absurd hok (by simp)
    · rw [hcfg] at hok
      dsimp only at hok
      injection hok with hok
      rw [← hok] at hmem
      exact mem_hydrated_results _ _ _ row hmem

theorem C9_response_denylist_witness :
    ∃ item, ([("id", PyVal.intV 1)] : Row) = item_to_response item :=
  C9_response_denylist.2 [{ name := "t", columns := ["a"], hybrid := false }]
    ⟨fun _ _ _ => [1], fun _ _ _ _ => [], fun _ _ _ _ _ => [], fun _ _ => [],
      fun _ _ => [[("id", PyVal.intV 1), ("embedding", PyVal.strV "x")]]⟩
    (fun _ => [0]) [] "t" "" 5 none [[("id", PyVal.intV 1)]]
    [("id", PyVal.intV 1)] (by rfl) (by simp)

/-- C10: on a hybrid table, an upsert whose fetched row lacks an `id`
field or whose configured text columns are all missing or null ends in
the uncaught `ValueError` from `add_or_update_item` — not in a 404 and
not in a successful no-op. -/
theorem C10_upsert_invalid_item (cfgs : List TableConfig)
    (fms : List (String × FaissIndex)) (embed : String → Vec)
    (tableName : String) (fetched : Option Row) (tc : TableConfig) (item : Row)
    (fm : FaissIndex)
    (hcfg : get_table_config cfgs tableName = some tc)
    (hh : tc.hybrid = true)
    (hf : fetched = some item)
    (hfm : lookupAssoc fms tableName = some fm)
    (hbad : lookupField item "id" = none
      ∨ embeddable_texts item tc.columns = []) :
    add_to_index cfgs fms embed tableName fetched = .valueError := by
  subst hf
  unfold add_to_index
  rw [hcfg]
  dsimp only
  simp only [hh, if_true]
  rw [hfm]
  dsimp only
  suffices hs : add_or_update_item embed fm item tc.columns = .error () by
    rw [hs]
  unfold add_or_update_item
  rcases hbad with hid | htexts
  · rw [if_pos hid]
  · by_cases hid : lookupField item "id" = none
    · rw [if_pos hid]
    · rw [if_neg hid, if_pos (by rw [htexts]; rfl)]

theorem C10_upsert_invalid_item_witness :
    add_to_index [{ name := "t", columns := ["titulo"], hybrid := true }]
        [("t", ([] : FaissIndex))] (fun _ => [0]) "t"
        (some [("id", PyVal.intV 1), ("titulo", PyVal.null)])
      = AddOutcome.valueError :=
  C10_upsert_invalid_item
    [{ name := "t", columns := ["titulo"], hybrid := true }]
    [("t", ([] : FaissIndex))] (fun _ => [0]) "t"
    (some [("id", PyVal.intV 1), ("titulo", PyVal.null)])
    { name := "t", columns := ["titulo"], hybrid := true }
    [("id", PyVal.intV 1), ("titulo", PyVal.null)] [] rfl rfl rfl rfl
    (Or.inr (by rfl))

end HybridSearch
